import Mathlib

/-!
# Verification of the broadcasttools telegraf input plugin

A shallow embedding of `plugins/inputs/broadcasttools/broadcasttools.go`.
Pure helpers (`keyify`, the regexp dispatch table, `strconv.Atoi`,
`strings.TrimSuffix`, `fmt.Sprintf("%02d", _)`) become Lean functions;
the stateful session code (`Dial`, `Close`, `Gather`, `init`) becomes
explicit state passing over small state records, with the HTTP exchange
a device observes supplied as an explicit input.  Go run-time panics
(failed interface type assertions) are modelled by the `PanicOr` monad-like
wrapper; Go `error` returns become `Option GoError` values.
-/

/-- A decoded JSON leaf value as Go's `encoding/json` produces it inside the
nested `values` object: `nil` is both JSON `null` and the nil interface
returned by indexing a Go map at an absent key; numbers are abstracted by
`Int` (the transforms other than temperature pass values through untouched,
so the numeric representation is never inspected). -/
inductive GoVal where
  | nil
  | str (s : String)
  | num (n : Int)
  | boolean (b : Bool)
deriving DecidableEq, Repr

/-- A decoded top-level JSON value, to the depth `device.Gather` inspects it:
the top-level object maps keys to either a scalar or a nested object. -/
inductive JTop where
  | scalar (v : GoVal)
  | obj (m : List (String × GoVal))
deriving DecidableEq, Repr

/-- Result of running Go code that may panic (a failed unchecked interface
type assertion aborts the goroutine). -/
inductive PanicOr (α : Type) where
  | panic (msg : String)
  | ok (a : α)
deriving DecidableEq, Repr

/-- The `error` values the plugin can return, one constructor per
`errors.New`/`fmt.Errorf` site in the source. -/
inductive GoError where
  | alreadyLoggedIn
  | transport
  | authFailed
  | noCookies
  | badStatus (code : Nat)
  | decodeFailed
  | parseErr
  | dialErr
deriving DecidableEq, Repr

/-- Indexing a Go `map[string]interface{}` : the value at the key, or the nil
interface when the key is absent. -/
def mapGet (m : List (String × GoVal)) (k : String) : GoVal :=
  (m.lookup k).getD .nil

/-- Go map assignment `m[k] = v`: overwrite the binding if present, else add
it. -/
def mapSet (m : List (String × GoVal)) (k : String) (v : GoVal) : List (String × GoVal) :=
  if m.lookup k = none then m ++ [(k, v)]
  else m.map (fun p => if p.1 = k then (k, v) else p)

/-- The unchecked assertion `x.(string)`: panics unless the dynamic type is
string (Go's message is "interface conversion: ..."). -/
def assertStr : GoVal → PanicOr String
  | .str s => .ok s
  | _ => .panic "interface conversion"

/-- The unchecked assertion `data["values"].(map[string]interface{})` on the
top-level decoded object: indexing at an absent key yields the nil interface,
which fails the assertion just as a scalar does. -/
def assertObjI : Option JTop → PanicOr (List (String × GoVal))
  | some (.obj m) => .ok m
  | _ => .panic "interface conversion"

/-- Value of a base-10 digit string, most significant digit first. -/
def digitsToNat (l : List Char) : Nat :=
  l.foldl (fun acc c => acc * 10 + (c.toNat - 48)) 0

/-- Whether a string is a syntactically well-formed base-10 integer for
`strconv.ParseInt`: an optional sign followed by at least one ASCII digit. -/
def isIntSyntax (s : String) : Bool :=
  match s.data with
  | [] => false
  | c :: rest =>
    if c = '-' ∨ c = '+' then !rest.isEmpty && rest.all Char.isDigit
    else (c :: rest).all Char.isDigit

/-- `strconv.Atoi`, i.e. `strconv.ParseInt(s, 10, 64)` on a 64-bit platform:
returns the parsed value and an ok flag (`err == nil`).  On a syntax error the
value is 0; on range overflow the value is the clamped 64-bit bound and the
flag is false (Go returns the bound together with `ErrRange`). -/
def goAtoi (s : String) : Int × Bool :=
  match s.data with
  | [] => (0, false)
  | c :: rest =>
    let neg := c = '-'
    let digits := if c = '-' ∨ c = '+' then rest else c :: rest
    if digits.isEmpty ∨ ¬ digits.all Char.isDigit then (0, false)
    else
      let n := digitsToNat digits
      if neg then
        if 2 ^ 63 < n then (-(2 ^ 63 : Int), false) else (-(n : Int), true)
      else
        if 2 ^ 63 - 1 < n then ((2 : Int) ^ 63 - 1, false) else ((n : Int), true)

/-- `strings.ToLower`: Go's Unicode table restricted to the ASCII letters,
which is exactly Lean's `Char.toLower` applied character-wise (the plugin's
labels are ASCII). -/
def goToLower (s : String) : String :=
  String.mk (s.data.map Char.toLower)

/-- `strings.Replace(s, " ", "_", -1)`: the pattern is a single character, so
replacing every occurrence is a character-wise map. -/
def goReplaceSpace (s : String) : String :=
  String.mk (s.data.map (fun c => if c = ' ' then '_' else c))

/-- `keyify` (broadcasttools.go lines 200-203): lower-case, then replace every
space with an underscore. -/
def keyify (s : String) : String :=
  goReplaceSpace (goToLower s)

theorem char_toNat_ofNat {n : Nat} (h : n < 55296) : (Char.ofNat n).toNat = n := by
  have hv : n.isValidChar := Or.inl h
  simp only [Char.ofNat, hv, dif_pos]
  rfl

theorem toLower_eq (c : Char) :
    Char.toLower c =
      if c.toNat ≥ 65 ∧ c.toNat ≤ 90 then Char.ofNat (c.toNat + 32) else c := rfl

theorem toLower_idem (c : Char) : Char.toLower (Char.toLower c) = Char.toLower c := by
  by_cases hc : c.toNat ≥ 65 ∧ c.toNat ≤ 90
  · have h32 : c.toNat + 32 < 55296 := by omega
    rw [toLower_eq c, if_pos hc, toLower_eq, char_toNat_ofNat h32]
    have hno : ¬ (c.toNat + 32 ≥ 65 ∧ c.toNat + 32 ≤ 90) := by omega
    rw [if_neg hno]
  · rw [toLower_eq c, if_neg hc, toLower_eq c, if_neg hc]

theorem toLower_underscore : Char.toLower '_' = '_' := by decide

theorem keyify_char_idem (c : Char) :
    (fun d => if d = ' ' then '_' else d) (Char.toLower
      ((fun d => if d = ' ' then '_' else d) (Char.toLower c))) =
    (fun d => if d = ' ' then '_' else d) (Char.toLower c) := by
  by_cases h : Char.toLower c = ' '
  · simp only [h, if_pos rfl, toLower_underscore]
    decide
  · simp only [if_neg h, toLower_idem c, if_neg h]

/-- C8: `keyify` is idempotent and normalizing: it sends "Temp Sensor 01" to
"temp_sensor_01", and applying it twice is the same as applying it once. -/
theorem keyify_spec :
    keyify "Temp Sensor 01" = "temp_sensor_01" ∧
    ∀ x : String, keyify (keyify x) = keyify x := by
  constructor
  · decide
  · intro x
    show goReplaceSpace (goToLower (goReplaceSpace (goToLower x))) =
      goReplaceSpace (goToLower x)
    simp only [goReplaceSpace, goToLower, List.map_map]
    apply congrArg String.mk
    apply congrArg (fun f => List.map f x.data)
    funext c
    exact keyify_char_idem c

/-- Whether `pat` is an initial segment of `l` (character-wise). -/
def hasPre : List Char → List Char → Bool
  | [], _ => true
  | _ :: _, [] => false
  | p :: ps, c :: cs => p = c && hasPre ps cs

/-- Full-anchored match of `^<pat>(\d+)$` as in the five compiled patterns of
broadcasttools.go lines 22-26 (`regexp.MustCompile` with `FindStringSubmatch`,
where `\d` is the ASCII digit class): the whole string must be the literal
pattern followed by at least one digit; the digits are the capture
(`matches[1]`). -/
def capPat (pat : List Char) (s : String) : Option String :=
  if hasPre pat s.data then
    let rest := s.data.drop pat.length
    if !rest.isEmpty && rest.all Char.isDigit then some (String.mk rest) else none
  else none

/-- `fmt.Sprintf("%02d", n)`: decimal rendering zero-padded on the left to a
minimum width of 2 (the sign counts toward the width, as in Go). -/
def sprintf02 (n : Int) : String :=
  let s := toString n
  if s.length < 2 then "0" ++ s else s

/-- `strings.TrimSuffix`: drop the suffix if present, else return the string
unchanged. -/
def goTrimSuffix (s pat : String) : String :=
  if hasPre pat.data.reverse s.data.reverse then
    String.mk (s.data.take (s.data.length - pat.data.length))
  else s

/-- The temperature transform (broadcasttools.go lines 29-34): read the
companion key `TempValue%02d`, assert it is a string, trim the " *F" suffix,
and `strconv.Atoi` the remainder, discarding the error. -/
def tempParserFn (src : List (String × GoVal)) (index : Int) : PanicOr GoVal :=
  match assertStr (mapGet src ("TempValue" ++ sprintf02 index)) with
  | .panic m => .panic m
  | .ok t => .ok (.num (goAtoi (goTrimSuffix t " *F")).1)

/-- The meter transform (lines 35-37): pass the companion value through. -/
def meterParserFn (src : List (String × GoVal)) (index : Int) : PanicOr GoVal :=
  .ok (mapGet src ("MeterValue" ++ sprintf02 index))

/-- The voltage/current transform (lines 38-40). -/
def vcParserFn (src : List (String × GoVal)) (index : Int) : PanicOr GoVal :=
  .ok (mapGet src ("VCValue" ++ sprintf02 index))

/-- The status-indicator transform (lines 41-43). -/
def statusParserFn (src : List (String × GoVal)) (index : Int) : PanicOr GoVal :=
  .ok (mapGet src ("StatusIndicator" ++ sprintf02 index))

/-- The relay-indicator transform (lines 44-46). -/
def relayParserFn (src : List (String × GoVal)) (index : Int) : PanicOr GoVal :=
  .ok (mapGet src ("RelayIndicator" ++ sprintf02 index))

/-- One entry of the `parsers` table: the compiled pattern (as its capture
function) and the transform. -/
def Rule : Type :=
  (String → Option String) × (List (String × GoVal) → Int → PanicOr GoVal)

/-- The `parsers` table (lines 28-47).  Go iterates the map in an unspecified
order; the list order here is immaterial because the five patterns are
pairwise disjoint (proved below). -/
def parsersL : List Rule :=
  [(capPat ['T', '1'], tempParserFn),
   (capPat ['M', '1'], meterParserFn),
   (capPat ['V', 'C', 'L', 'a', 'b', 'e', 'l'], vcParserFn),
   (capPat ['S', '1'], statusParserFn),
   (capPat ['R', '2'], relayParserFn)]

/-- The inner loop of `device.Gather` (lines 226-237) for one key of the
`values` map: try every rule; on a match, `strconv.Atoi` the captured digits
(`continue` on error), run the transform, assert the key's own value is a
string, and store the transform's result under the keyified label.  There is
no `break`, so every rule is tried. -/
def runParsersAux (rs : List Rule) (values : List (String × GoVal)) (key : String)
    (name : GoVal) (fields : List (String × GoVal)) : PanicOr (List (String × GoVal)) :=
  match rs with
  | [] => .ok fields
  | (cap, p) :: rest =>
    match cap key with
    | none => runParsersAux rest values key name fields
    | some digits =>
      let r := goAtoi digits
      if r.2 then
        match p values r.1 with
        | .panic m => .panic m
        | .ok value =>
          match assertStr name with
          | .panic m => .panic m
          | .ok n => runParsersAux rest values key name (mapSet fields (keyify n) value)
      else runParsersAux rest values key name fields

/-- The outer loop of `device.Gather` (lines 225-238): fold the per-key
dispatch over the `values` map, accumulating the `fields` map.  Go iterates
the map in an unspecified order; when the labels are distinct, order does not
affect the resulting field set. -/
def extractLoop (values : List (String × GoVal)) :
    List (String × GoVal) → List (String × GoVal) → PanicOr (List (String × GoVal))
  | [], fields => .ok fields
  | (key, name) :: rest, fields =>
    match runParsersAux parsersL values key name fields with
    | .panic m => .panic m
    | .ok fields2 => extractLoop values rest fields2

/-- Field extraction, lines 223-238: start from the empty `fields` map and
process every entry of `values`. -/
def extractFields (values : List (String × GoVal)) : PanicOr (List (String × GoVal)) :=
  extractLoop values values []

/-- The fields of Go's `net/url.URL` that `device.send` touches: the base
address parsed from configuration (scheme, host, decoded path, optional raw
path). -/
structure GoURL where
  scheme : String
  host : String
  path : String
  rawPath : String
deriving DecidableEq, Repr

/-- `url.URL.EscapedPath`, restricted to percent-free ASCII path strings (the
only ones the plugin builds): Go returns `RawPath` only when it is a valid
encoding of `Path`, which for percent-free strings means the two are equal;
otherwise `RawPath` is ignored and `Path` is escaped (here: returned). -/
def escapedPath (u : GoURL) : String :=
  if u.rawPath ≠ "" ∧ u.rawPath = u.path then u.rawPath else u.path

/-- `url.URL.String` for a URL with scheme and host and none of the unused
fields (user, query, fragment): scheme://host followed by the escaped path. -/
def urlString (u : GoURL) : String :=
  u.scheme ++ "://" ++ u.host ++ escapedPath u

/-- The URL of the request built by `device.send` (broadcasttools.go lines
142-145): copy the base URL, set `RawPath` (not `Path`) to the endpoint path,
and render with `String` for `http.NewRequest`. -/
def sendURL (base : GoURL) (path : String) : String :=
  urlString { base with rawPath := path }

/-- The per-device session state `device.send`/`Dial`/`Close` manipulate: the
stored session cookie `ck` (none until login) and whether the transport handle
`c` is non-nil. -/
structure DeviceState where
  ck : Option String
  hasClient : Bool
deriving DecidableEq, Repr

/-- The response the login POST observes: whether the transport errored, the
HTTP status, and the response cookies. -/
structure DialResponse where
  transportErr : Bool
  status : Nat
  cookies : List String
deriving DecidableEq, Repr

/-- `(*device).Dial` (lines 159-184): refuse when a cookie is already stored;
otherwise POST the credentials and require status 200 and at least one
response cookie, storing the first cookie. -/
def dialGo (d : DeviceState) (r : DialResponse) : Option GoError × DeviceState :=
  if d.ck.isSome then (some .alreadyLoggedIn, d)
  else if r.transportErr then (some .transport, d)
  else if r.status ≠ 200 then (some .authFailed, d)
  else
    match r.cookies with
    | [] => (some .noCookies, d)
    | c :: _ => (none, { d with ck := some c })

/-- The body of `device.Close` (lines 186-198) acting on its receiver: POST
the logout form; on a transport error return nil at once (the comment reads
"ignore logout errors") without clearing anything; otherwise set `ck` and `c`
to nil and return nil. -/
def closeBody (d : DeviceState) (transportFails : Bool) : Option GoError × DeviceState :=
  if transportFails then (none, d)
  else (none, { ck := none, hasClient := false })

/-- `Close` as the caller observes it: the receiver is a VALUE (`func (d
device) Close()`), so the body mutates a copy and the caller's stored device
is unchanged whatever the body did. -/
def closeCaller (d : DeviceState) (transportFails : Bool) : Option GoError × DeviceState :=
  ((closeBody d transportFails).1, d)

/-- One emission through `telegraf.Accumulator.AddFields`. -/
structure Emission where
  name : String
  fields : List (String × GoVal)
  tags : Option (List (String × String))
deriving DecidableEq, Repr

/-- The HTTP exchange one `device.Gather` poll observes: whether the GET
errored, the status code, and the result of JSON-decoding the body, none
standing for a decode error (the decode itself is `encoding/json`, outside
the plugin). -/
structure PollInput where
  transportErr : Bool
  status : Nat
  decode : Option (List (String × JTop))
deriving DecidableEq, Repr

/-- `(*device).Gather` (lines 205-243): transport errors and non-200 statuses
are returned as errors; a JSON decode error is returned; then the unchecked
assertion `data["values"].(map[string]interface{})` (a panic when `values` is
absent or not an object), field extraction (which can itself panic), and one
`AddFields("broadcasttools", fields, nil)` emission with a nil return. -/
def devGather (inp : PollInput) : PanicOr (Option GoError × List Emission) :=
  if inp.transportErr then .ok (some .transport, [])
  else if inp.status ≠ 200 then .ok (some (.badStatus inp.status), [])
  else
    match inp.decode with
    | none => .ok (some .decodeFailed, [])
    | some data =>
      match assertObjI (data.lookup "values") with
      | .panic m => .panic m
      | .ok values =>
        match extractFields values with
        | .panic m => .panic m
        | .ok fields => .ok (none, [⟨"broadcasttools", fields, none⟩])

/-- The fan-out loop of `(*BroadcastTools).Gather` (lines 117-130): one
goroutine per device, each performing exactly one accumulator action — the
device's `AddFields` on success or one `AddError` on failure — joined by a
full `WaitGroup` barrier.  Only the multiset of accumulator calls is
observable, so the concurrent fan-out is modelled as a fold in device order;
a panic in any goroutine crashes the process. -/
def cycleLoop : List PollInput → PanicOr (List GoError × List Emission)
  | [] => .ok ([], [])
  | inp :: rest =>
    match devGather inp with
    | .panic m => .panic m
    | .ok (some e, ems) =>
      match cycleLoop rest with
      | .panic m => .panic m
      | .ok (errs, allEms) => .ok (e :: errs, ems ++ allEms)
    | .ok (none, ems) =>
      match cycleLoop rest with
      | .panic m => .panic m
      | .ok (errs, allEms) => .ok (errs, ems ++ allEms)

/-- `(*BroadcastTools).Gather` (lines 110-132) on an initialized plugin (the
`bt.initialized` branch is skipped): run the cycle and return nil. -/
def btGatherCycle (inps : List PollInput) :
    PanicOr (Option GoError × List GoError × List Emission) :=
  match cycleLoop inps with
  | .panic m => .panic m
  | .ok (errs, ems) => .ok (none, errs, ems)

/-- What happens to one configured URL during one `init` attempt: its
`url.Parse` fails, its `Dial` fails, or both succeed. -/
inductive URLOutcome where
  | parseFail
  | dialFail
  | ok
deriving DecidableEq, Repr

/-- The plugin state `init` and `Gather` manipulate: the device list (devices
identified by their configured URL) and the `initialized` flag. -/
structure BTState where
  devices : List String
  initialized : Bool
deriving DecidableEq, Repr

/-- The loop body of `(*BroadcastTools).init` (lines 80-96): for each URL,
return at once on a parse or dial failure (devices appended so far stay
appended; a device is appended only after its `Dial` succeeds). -/
def initLoop : List (String × URLOutcome) → List String → Option GoError × List String
  | [], devs => (none, devs)
  | (u, o) :: rest, devs =>
    match o with
    | .parseFail => (some .parseErr, devs)
    | .dialFail => (some .dialErr, devs)
    | .ok => initLoop rest (devs ++ [u])

/-- `(*BroadcastTools).init` (lines 75-100): a no-op when already initialized;
otherwise run the loop over the configured URLs, and set `initialized` only
when the whole loop succeeded. -/
def initBT (att : List (String × URLOutcome)) (st : BTState) : Option GoError × BTState :=
  if st.initialized then (none, st)
  else
    match initLoop att st.devices with
    | (some e, devs) => (some e, { st with devices := devs })
    | (none, devs) => (none, { devices := devs, initialized := true })

/-- `(*BroadcastTools).Gather` (lines 110-132) at the granularity C10 needs:
run `init` when not yet initialized, returning its error without polling;
otherwise poll every entry of the device list (the returned list is the
devices polled this cycle, one goroutine each). -/
def gatherBT (att : List (String × URLOutcome)) (st : BTState) :
    Option GoError × BTState × List String :=
  match initBT att st with
  | (some e, st1) => (some e, st1, [])
  | (none, st1) => (none, st1, st1.devices)

/-- C7: login while a session cookie is already stored fails with the
already-authenticated error, and the failed call leaves the device state —
in particular the stored cookie — unchanged. -/
theorem dial_already_authenticated (d : DeviceState) (r : DialResponse) (c : String)
    (h : d.ck = some c) : dialGo d r = (some .alreadyLoggedIn, d) := by
  simp [dialGo, h]

theorem dial_already_authenticated_witness :
    dialGo ⟨some "SESSID=9", true⟩ ⟨false, 200, ["fresh"]⟩ =
      (some .alreadyLoggedIn, ⟨some "SESSID=9", true⟩) :=
  dial_already_authenticated ⟨some "SESSID=9", true⟩ ⟨false, 200, ["fresh"]⟩ "SESSID=9" rfl

/-- C1 (code bug): `Close` always returns nil, but because the receiver is a
value the caller's device still holds the old cookie afterwards — whether the
logout POST succeeded or errored — even though the body's own copy is cleared
on the success path; a subsequent `Dial` therefore fails with the
already-authenticated error instead of succeeding. -/
theorem close_value_receiver_bug :
    (closeCaller ⟨some "SESSID=9", true⟩ false).1 = none ∧
    (closeCaller ⟨some "SESSID=9", true⟩ true).1 = none ∧
    (closeCaller ⟨some "SESSID=9", true⟩ false).2.ck = some "SESSID=9" ∧
    (closeCaller ⟨some "SESSID=9", true⟩ true).2.ck = some "SESSID=9" ∧
    (closeBody ⟨some "SESSID=9", true⟩ false).2.ck = none ∧
    (closeBody ⟨some "SESSID=9", true⟩ true).2.ck = some "SESSID=9" ∧
    (dialGo (closeCaller ⟨some "SESSID=9", true⟩ false).2 ⟨false, 200, ["fresh"]⟩).1 =
      some .alreadyLoggedIn := by
  decide

/-- C2 (code bug): `send` sets `RawPath` instead of `Path` on the copied base
URL, and `url.URL.String` ignores a `RawPath` that is not a valid encoding of
`Path`; for the base address http://localhost:1776 (whose parsed path is
empty) the transmitted URL is just the base with no endpoint path at all. -/
theorem send_rawpath_bug :
    sendURL ⟨"http", "localhost:1776", "", ""⟩ "/cgi-bin/postauth.cgi" =
      "http://localhost:1776" ∧
    ¬ List.IsInfix "/cgi-bin/postauth.cgi".data "http://localhost:1776".data := by
  refine ⟨by decide, by decide⟩

/-- C3 (amended): a 200 poll whose body decodes but has no "values" key, or a
non-object under it, does not return an error — `Gather` panics on the
unchecked `data["values"].(map[string]interface{})` assertion, so
nothing is emitted and no value is returned at all. -/
theorem gather_values_panic (data : List (String × JTop))
    (h : ∀ m, data.lookup "values" ≠ some (.obj m)) :
    devGather ⟨false, 200, some data⟩ = .panic "interface conversion" := by
  have hobj : assertObjI (data.lookup "values") = .panic "interface conversion" := by
    cases hv : data.lookup "values" with
    | none => rfl
    | some jt =>
      cases jt with
      | scalar v => rfl
      | obj m => exact absurd hv (h m)
  simp [devGather, hobj]

theorem gather_values_panic_witness :
    devGather ⟨false, 200, some []⟩ = .panic "interface conversion" :=
  gather_values_panic [] (fun m h => by cases h)

/-- C3 counterexample: at the empty decoded object the poll panics instead of
returning an error, and in particular no error/emission pair is produced. -/
theorem gather_values_panic_cex :
    devGather ⟨false, 200, some [("other", JTop.scalar (GoVal.num 1))]⟩ =
      .panic "interface conversion" ∧
    ∀ (e : GoError) (ems : List Emission),
      devGather ⟨false, 200, some [("other", JTop.scalar (GoVal.num 1))]⟩ ≠
        .ok (some e, ems) := by
  constructor
  · decide
  · intro e ems h
    rw [show devGather ⟨false, 200, some [("other", JTop.scalar (GoVal.num 1))]⟩ =
      .panic "interface conversion" by decide] at h
    cases h

theorem goAtoi_syntax_false {s : String} (h : isIntSyntax s = false) :
    goAtoi s = (0, false) := by
  unfold isIntSyntax at h
  unfold goAtoi
  cases hs : s.data with
  | nil => rfl
  | cons c rest =>
    rw [hs] at h
    simp only at h
    by_cases hsign : c = '-' ∨ c = '+'
    · rw [if_pos hsign] at h
      have hcond : rest.isEmpty = true ∨ ¬ rest.all Char.isDigit = true := by
        cases hre : rest.isEmpty with
        | true => exact Or.inl rfl
        | false =>
          right
          intro hall
          rw [hre, hall] at h
          cases h
      simp only
      rw [if_pos hsign, if_pos hcond]
    · rw [if_neg hsign] at h
      have hcond : (c :: rest).isEmpty = true ∨ ¬ (c :: rest).all Char.isDigit = true :=
        Or.inr (by rw [h]; intro hh; cases hh)
      simp only
      rw [if_neg hsign, if_pos hcond]

/-- C5 (amended): a companion value "72 *F" yields 72; stripping removes one
" *F" suffix and the whole remainder must parse with `strconv.Atoi`, whose
discarded error leaves 0 whenever the remainder is not a well-formed integer;
a suffix-less companion that is itself an integer, such as "72", yields its
own value, but a suffix-less companion with trailing junk, such as "72 F",
yields 0 rather than its numeric prefix. -/
theorem temp_transform_amended :
    (∀ (values : List (String × GoVal)) (index : Int),
        mapGet values ("TempValue" ++ sprintf02 index) = .str "72 *F" →
        tempParserFn values index = .ok (.num 72)) ∧
    (∀ (s : String), isIntSyntax (goTrimSuffix s " *F") = false →
        ∀ (values : List (String × GoVal)) (index : Int),
          mapGet values ("TempValue" ++ sprintf02 index) = .str s →
          tempParserFn values index = .ok (.num 0)) ∧
    tempParserFn [("TempValue01", GoVal.str "72")] 1 = .ok (.num 72) ∧
    tempParserFn [("TempValue01", GoVal.str "72 F")] 1 = .ok (.num 0) := by
  refine ⟨?_, ?_, by decide, by decide⟩
  · intro values index h
    unfold tempParserFn
    rw [h]
    decide
  · intro s hsyn values index h
    unfold tempParserFn
    rw [h]
    show PanicOr.ok (GoVal.num (goAtoi (goTrimSuffix s " *F")).1) = .ok (.num 0)
    rw [goAtoi_syntax_false hsyn]

theorem temp_transform_witness :
    tempParserFn [("TempValue05", GoVal.str "72 *F")] 5 = .ok (.num 72) ∧
    tempParserFn [("TempValue02", GoVal.str "9 9")] 2 = .ok (.num 0) :=
  ⟨temp_transform_amended.1 [("TempValue05", GoVal.str "72 *F")] 5 (by decide),
   temp_transform_amended.2.1 "9 9" (by decide) [("TempValue02", GoVal.str "9 9")] 2 (by decide)⟩

/-- C5 counterexample: the companion "72 F" lacks the " *F" suffix; the claim
says parsing yields the numeric prefix (72), but `strconv.Atoi` rejects the
whole string and the transform emits 0. -/
theorem temp_no_suffix_cex :
    tempParserFn [("TempValue01", GoVal.str "72 F")] 1 = .ok (.num 0) ∧
    GoVal.num 0 ≠ GoVal.num 72 :=
  ⟨by decide, by decide⟩

theorem runParsersAux_no_match (rs : List Rule) (values : List (String × GoVal))
    (key : String) (name : GoVal) (fields : List (String × GoVal))
    (h : ∀ r ∈ rs, r.1 key = none) :
    runParsersAux rs values key name fields = .ok fields := by
  induction rs with
  | nil => rfl
  | cons r rest ih =>
    obtain ⟨cap, p⟩ := r
    have hc : cap key = none := h (cap, p) (List.mem_cons_self _ _)
    rw [runParsersAux, hc]
    exact ih (fun r hr => h r (List.mem_cons_of_mem _ hr))

/-- C4 (amended): a key matching none of the five patterns contributes no
entry to the field map; but a matched key whose companion key is absent does
not always contribute nothing — the meter rule (like the other passthrough
rules) stores the nil interface under the normalized label, and the
temperature rule panics on its string assertion. -/
theorem extract_no_rule_or_companion :
    (∀ (values : List (String × GoVal)) (key : String) (name : GoVal)
        (fields : List (String × GoVal)),
        (∀ r ∈ parsersL, r.1 key = none) →
        runParsersAux parsersL values key name fields = .ok fields) ∧
    extractFields [("M101", GoVal.str "Meter 1")] = .ok [("meter_1", GoVal.nil)] ∧
    extractFields [("T101", GoVal.str "Temp 1")] = .panic "interface conversion" := by
  refine ⟨fun values key name fields h => runParsersAux_no_match _ _ _ _ _ h, by decide, by decide⟩

theorem extract_no_rule_witness :
    runParsersAux parsersL [("X", GoVal.num 3)] "Hello" (GoVal.str "x") [] = .ok [] :=
  extract_no_rule_or_companion.1 [("X", GoVal.num 3)] "Hello" (GoVal.str "x") [] (by decide)

/-- C4 counterexample: in the payload whose only key is M101 (label "Meter 1")
with the companion MeterValue01 absent, extraction produces an entry — the
label bound to the nil interface — contradicting "no entry for that key". -/
theorem extract_companion_absent_cex :
    extractFields [("M101", GoVal.str "Meter 1")] = .ok [("meter_1", GoVal.nil)] ∧
    [("meter_1", GoVal.nil)] ≠ ([] : List (String × GoVal)) :=
  ⟨by decide, by decide⟩

theorem capPat_ne_head (c : Char) (pat : List Char) (s : String)
    (h : s.data.head? ≠ some c) : capPat (c :: pat) s = none := by
  unfold capPat
  cases hs : s.data with
  | nil => rfl
  | cons d ds =>
    have hne : ¬ (c = d) := by
      intro hc
      apply h
      rw [hs, hc]
      rfl
    simp [hasPre, hne]

/-- C9: the five field patterns are pairwise disjoint — every key matches at
most one entry of the `parsers` table, so dispatch is independent of the map
iteration order. -/
theorem patterns_disjoint (key : String) :
    (parsersL.filter (fun r => (r.1 key).isSome)).length ≤ 1 := by
  cases hk : key.data.head? with
  | none =>
    have h1 := capPat_ne_head 'T' ['1'] key (by rw [hk]; intro hh; cases hh)
    have h2 := capPat_ne_head 'M' ['1'] key (by rw [hk]; intro hh; cases hh)
    have h3 := capPat_ne_head 'V' ['C', 'L', 'a', 'b', 'e', 'l'] key
      (by rw [hk]; intro hh; cases hh)
    have h4 := capPat_ne_head 'S' ['1'] key (by rw [hk]; intro hh; cases hh)
    have h5 := capPat_ne_head 'R' ['2'] key (by rw [hk]; intro hh; cases hh)
    simp [parsersL, List.filter, h1, h2, h3, h4, h5]
  | some c =>
    by_cases hT : c = 'T'
    · subst hT
      have h2 := capPat_ne_head 'M' ['1'] key (by rw [hk]; decide)
      have h3 := capPat_ne_head 'V' ['C', 'L', 'a', 'b', 'e', 'l'] key (by rw [hk]; decide)
      have h4 := capPat_ne_head 'S' ['1'] key (by rw [hk]; decide)
      have h5 := capPat_ne_head 'R' ['2'] key (by rw [hk]; decide)
      simp only [parsersL, List.filter, h2, h3, h4, h5, Option.isSome_none]
      cases (capPat ['T', '1'] key).isSome <;> simp
    · by_cases hM : c = 'M'
      · subst hM
        have h1 := capPat_ne_head 'T' ['1'] key (by rw [hk]; decide)
        have h3 := capPat_ne_head 'V' ['C', 'L', 'a', 'b', 'e', 'l'] key (by rw [hk]; decide)
        have h4 := capPat_ne_head 'S' ['1'] key (by rw [hk]; decide)
        have h5 := capPat_ne_head 'R' ['2'] key (by rw [hk]; decide)
        simp only [parsersL, List.filter, h1, h3, h4, h5, Option.isSome_none]
        cases (capPat ['M', '1'] key).isSome <;> simp
      · by_cases hV : c = 'V'
        · subst hV
          have h1 := capPat_ne_head 'T' ['1'] key (by rw [hk]; decide)
          have h2 := capPat_ne_head 'M' ['1'] key (by rw [hk]; decide)
          have h4 := capPat_ne_head 'S' ['1'] key (by rw [hk]; decide)
          have h5 := capPat_ne_head 'R' ['2'] key (by rw [hk]; decide)
          simp only [parsersL, List.filter, h1, h2, h4, h5, Option.isSome_none]
          cases (capPat ['V', 'C', 'L', 'a', 'b', 'e', 'l'] key).isSome <;> simp
        · by_cases hS : c = 'S'
          · subst hS
            have h1 := capPat_ne_head 'T' ['1'] key (by rw [hk]; decide)
            have h2 := capPat_ne_head 'M' ['1'] key (by rw [hk]; decide)
            have h3 := capPat_ne_head 'V' ['C', 'L', 'a', 'b', 'e', 'l'] key
              (by rw [hk]; decide)
            have h5 := capPat_ne_head 'R' ['2'] key (by rw [hk]; decide)
            simp only [parsersL, List.filter, h1, h2, h3, h5, Option.isSome_none]
            cases (capPat ['S', '1'] key).isSome <;> simp
          · by_cases hR : c = 'R'
            · subst hR
              have h1 := capPat_ne_head 'T' ['1'] key (by rw [hk]; decide)
              have h2 := capPat_ne_head 'M' ['1'] key (by rw [hk]; decide)
              have h3 := capPat_ne_head 'V' ['C', 'L', 'a', 'b', 'e', 'l'] key
                (by rw [hk]; decide)
              have h4 := capPat_ne_head 'S' ['1'] key (by rw [hk]; decide)
              simp only [parsersL, List.filter, h1, h2, h3, h4, Option.isSome_none]
              cases (capPat ['R', '2'] key).isSome <;> simp
            · have h1 := capPat_ne_head 'T' ['1'] key
                (by rw [hk]; intro hh; exact hT (Option.some.inj hh))
              have h2 := capPat_ne_head 'M' ['1'] key
                (by rw [hk]; intro hh; exact hM (Option.some.inj hh))
              have h3 := capPat_ne_head 'V' ['C', 'L', 'a', 'b', 'e', 'l'] key
                (by rw [hk]; intro hh; exact hV (Option.some.inj hh))
              have h4 := capPat_ne_head 'S' ['1'] key
                (by rw [hk]; intro hh; exact hS (Option.some.inj hh))
              have h5 := capPat_ne_head 'R' ['2'] key
                (by rw [hk]; intro hh; exact hR (Option.some.inj hh))
              simp [parsersL, List.filter, h1, h2, h3, h4, h5]

theorem devGather_err_no_emission (inp : PollInput) (e : GoError) (ems : List Emission)
    (h : devGather inp = .ok (some e, ems)) : ems = [] := by
  unfold devGather at h
  by_cases h1 : inp.transportErr
  · rw [if_pos h1] at h
    exact (Prod.mk.injEq _ _ _ _ ▸ PanicOr.ok.inj h).2.symm
  · rw [if_neg h1] at h
    by_cases h2 : inp.status ≠ 200
    · rw [if_pos h2] at h
      exact (Prod.mk.injEq _ _ _ _ ▸ PanicOr.ok.inj h).2.symm
    · rw [if_neg h2] at h
      cases hd : inp.decode with
      | none => rw [hd] at h; exact (Prod.mk.injEq _ _ _ _ ▸ PanicOr.ok.inj h).2.symm
      | some data =>
        rw [hd] at h
        simp only [] at h
        cases ho : assertObjI (data.lookup "values") with
        | panic m => rw [ho] at h; cases h
        | ok values =>
          rw [ho] at h
          simp only [] at h
          cases hx : extractFields values with
          | panic m => rw [hx] at h; cases h
          | ok fields =>
            rw [hx] at h
            simp only [] at h
            have := (Prod.mk.injEq _ _ _ _ ▸ PanicOr.ok.inj h).1
            cases this

theorem cycleLoop_all_ok (inps : List PollInput)
    (h : ∀ (j : Nat) (hj : j < inps.length),
      ∃ f, devGather (inps.get ⟨j, hj⟩) = .ok (none, [⟨"broadcasttools", f, none⟩])) :
    ∃ ems, cycleLoop inps = .ok ([], ems) ∧ ems.length = inps.length ∧
      ∀ em ∈ ems, em.name = "broadcasttools" ∧ em.tags = none := by
  induction inps with
  | nil => exact ⟨[], rfl, rfl, by intro em hm; cases hm⟩
  | cons inp rest ih =>
    obtain ⟨f, hf⟩ := h 0 (Nat.succ_pos _)
    have hf0 : devGather inp = .ok (none, [⟨"broadcasttools", f, none⟩]) := hf
    obtain ⟨ems, hloop, hlen, hall⟩ := ih (fun j hj => h (j + 1) (Nat.succ_lt_succ hj))
    refine ⟨⟨"broadcasttools", f, none⟩ :: ems, ?_, ?_, ?_⟩
    · simp [cycleLoop, hf0, hloop]
    · simp [hlen]
    · intro em hm
      cases hm with
      | head => exact ⟨rfl, rfl⟩
      | tail _ hm => exact hall em hm

theorem cycleLoop_one_fail (inps : List PollInput) :
    ∀ (k : Nat) (hk : k < inps.length) (e : GoError),
      devGather (inps.get ⟨k, hk⟩) = .ok (some e, []) →
      (∀ (j : Nat) (hj : j < inps.length), j ≠ k →
        ∃ f, devGather (inps.get ⟨j, hj⟩) = .ok (none, [⟨"broadcasttools", f, none⟩])) →
      ∃ ems, cycleLoop inps = .ok ([e], ems) ∧ ems.length = inps.length - 1 ∧
        ∀ em ∈ ems, em.name = "broadcasttools" ∧ em.tags = none := by
  induction inps with
  | nil => intro k hk; exact absurd hk (Nat.not_lt_zero k)
  | cons inp rest ih =>
    intro k hk e hfail hok
    cases k with
    | zero =>
      obtain ⟨ems, hloop, hlen, hall⟩ := cycleLoop_all_ok rest
        (fun j hj => hok (j + 1) (Nat.succ_lt_succ hj) (Nat.succ_ne_zero j))
      have hfail0 : devGather inp = .ok (some e, []) := hfail
      refine ⟨ems, ?_, ?_, hall⟩
      · simp [cycleLoop, hfail0, hloop]
      · simpa using hlen
    | succ k =>
      have hk' : k < rest.length := Nat.lt_of_succ_lt_succ hk
      obtain ⟨f, hf⟩ := hok 0 (Nat.succ_pos _) (Ne.symm (Nat.succ_ne_zero k))
      have hf0 : devGather inp = .ok (none, [⟨"broadcasttools", f, none⟩]) := hf
      obtain ⟨ems, hloop, hlen, hall⟩ := ih k hk' e hfail
        (fun j hj hne => hok (j + 1) (Nat.succ_lt_succ hj) (fun hh => hne (Nat.succ.inj hh)))
      refine ⟨⟨"broadcasttools", f, none⟩ :: ems, ?_, ?_, ?_⟩
      · simp [cycleLoop, hf0, hloop]
      · simp only [List.length_cons, hlen]
        omega
      · intro em hm
        cases hm with
        | head => exact ⟨rfl, rfl⟩
        | tail _ hm => exact hall em hm

/-- C6: over any initialized device set where the poll of device k returns an
error and every other poll succeeds, the cycle records exactly that one error,
emits exactly N-1 field maps, each under the metric name "broadcasttools" with
nil tags, and the `Gather` call itself returns nil. -/
theorem gather_cycle_one_failure (inps : List PollInput) (k : Nat) (hk : k < inps.length)
    (e : GoError) (emsK : List Emission)
    (hfail : devGather (inps.get ⟨k, hk⟩) = .ok (some e, emsK))
    (hok : ∀ (j : Nat) (hj : j < inps.length), j ≠ k →
      ∃ f, devGather (inps.get ⟨j, hj⟩) = .ok (none, [⟨"broadcasttools", f, none⟩])) :
    ∃ ems, btGatherCycle inps = .ok (none, [e], ems) ∧ ems.length = inps.length - 1 ∧
      ∀ em ∈ ems, em.name = "broadcasttools" ∧ em.tags = none := by
  have hemsK : emsK = [] := devGather_err_no_emission _ _ _ hfail
  subst hemsK
  obtain ⟨ems, hloop, hlen, hall⟩ := cycleLoop_one_fail inps k hk e hfail hok
  exact ⟨ems, by rw [btGatherCycle, hloop], hlen, hall⟩

theorem gather_cycle_one_failure_witness :
    ∃ ems,
      btGatherCycle [⟨false, 500, some []⟩, ⟨false, 200, some [("values", JTop.obj [])]⟩] =
        .ok (none, [.badStatus 500], ems) ∧
      ems.length = 1 ∧ ∀ em ∈ ems, em.name = "broadcasttools" ∧ em.tags = none :=
  gather_cycle_one_failure
    [⟨false, 500, some []⟩, ⟨false, 200, some [("values", JTop.obj [])]⟩]
    0 (by decide) (.badStatus 500) [] (by decide)
    (by
      intro j hj hne
      have hj2 : j < 2 := hj
      interval_cases j
      · exact absurd rfl hne
      · refine ⟨[], ?_⟩
        show devGather ⟨false, 200, some [("values", JTop.obj [])]⟩ =
          PanicOr.ok (none, [⟨"broadcasttools", [], none⟩])
        decide)

theorem initLoop_all_ok (att : List (String × URLOutcome)) :
    ∀ (devs : List String), (∀ p ∈ att, p.2 = URLOutcome.ok) →
      initLoop att devs = (none, devs ++ att.map Prod.fst) := by
  induction att with
  | nil => intro devs _; simp [initLoop]
  | cons p rest ih =>
    intro devs h
    obtain ⟨u, o⟩ := p
    have ho : o = URLOutcome.ok := h (u, o) (List.mem_cons_self _ _)
    subst ho
    rw [initLoop]
    rw [ih (devs ++ [u]) (fun q hq => h q (List.mem_cons_of_mem _ hq))]
    simp

theorem initLoop_fail (pre : List (String × URLOutcome)) :
    ∀ (u : String) (rest : List (String × URLOutcome)) (devs : List String),
      (∀ p ∈ pre, p.2 = URLOutcome.ok) →
      initLoop (pre ++ (u, URLOutcome.dialFail) :: rest) devs =
        (some .dialErr, devs ++ pre.map Prod.fst) := by
  induction pre with
  | nil => intro u rest devs _; simp [initLoop]
  | cons p pres ih =>
    intro u rest devs h
    obtain ⟨v, o⟩ := p
    have ho : o = URLOutcome.ok := h (v, o) (List.mem_cons_self _ _)
    subst ho
    rw [List.cons_append, initLoop]
    rw [ih u rest (devs ++ [v]) (fun q hq => h q (List.mem_cons_of_mem _ hq))]
    simp

/-- C10: a first gather whose init dials the devices in `pre` and then fails
leaves those devices appended while `initialized` stays false and nothing is
polled; a later gather whose init succeeds over the same URL list appends a
fresh device per configured URL, so the leftover devices are polled too and
every URL dialed before the failure is polled at least twice that cycle. -/
theorem init_not_atomic (pre : List (String × URLOutcome)) (u : String)
    (rest att2 : List (String × URLOutcome))
    (hpre : ∀ p ∈ pre, p.2 = URLOutcome.ok)
    (hatt2 : ∀ p ∈ att2, p.2 = URLOutcome.ok)
    (hsame : att2.map Prod.fst = (pre ++ (u, URLOutcome.dialFail) :: rest).map Prod.fst) :
    gatherBT (pre ++ (u, URLOutcome.dialFail) :: rest) ⟨[], false⟩ =
      (some .dialErr, ⟨pre.map Prod.fst, false⟩, []) ∧
    gatherBT att2 ⟨pre.map Prod.fst, false⟩ =
      (none, ⟨pre.map Prod.fst ++ att2.map Prod.fst, true⟩,
        pre.map Prod.fst ++ att2.map Prod.fst) ∧
    ∀ w ∈ pre.map Prod.fst, 2 ≤ (pre.map Prod.fst ++ att2.map Prod.fst).count w := by
  refine ⟨?_, ?_, ?_⟩
  · have hl := initLoop_fail pre u rest [] hpre
    simp only [List.nil_append] at hl
    simp [gatherBT, initBT, hl]
  · have hl := initLoop_all_ok att2 (pre.map Prod.fst) hatt2
    simp [gatherBT, initBT, hl]
  · intro w hw
    have hw2 : w ∈ att2.map Prod.fst := by
      rw [hsame, List.map_append]
      exact List.mem_append_left _ hw
    rw [List.count_append]
    have h1 : 0 < (pre.map Prod.fst).count w := List.count_pos_iff.mpr hw
    have h2 : 0 < (att2.map Prod.fst).count w := List.count_pos_iff.mpr hw2
    omega

theorem init_not_atomic_witness :
    gatherBT [("http://a", URLOutcome.ok), ("http://b", URLOutcome.dialFail)] ⟨[], false⟩ =
      (some .dialErr, ⟨["http://a"], false⟩, []) ∧
    gatherBT [("http://a", URLOutcome.ok), ("http://b", URLOutcome.ok)] ⟨["http://a"], false⟩ =
      (none, ⟨["http://a", "http://a", "http://b"], true⟩,
        ["http://a", "http://a", "http://b"]) ∧
    ∀ w ∈ ["http://a"], 2 ≤ (["http://a"] ++ ["http://a", "http://b"]).count w :=
  init_not_atomic [("http://a", URLOutcome.ok)] "http://b" []
    [("http://a", URLOutcome.ok), ("http://b", URLOutcome.ok)]
    (by decide) (by decide) (by decide)
